import Mathlib

/-!
# Verification of the P&L Analysis Assistant pipeline

A shallow embedding of the standardization-and-variance engine of
`src/app.py` (lines 10-14 and 45-99): load → join with the chart of
accounts → numeric-column defaulting → sign normalization → period
filter → group-and-sum → variance computation → driver ranking →
totals → export payload.

Modelling conventions:
* pandas numeric cells are modelled as `ℚ`; the float values `NaN`,
  `+inf`, `-inf` that arise in the pipeline are modelled explicitly:
  a nullable numeric column is `Option ℚ` with `none` for `NaN`, and
  the result of a float division is the inductive `FVal` below.
* `pd.read_csv` column presence is modelled by the `has*` flags on the
  input structures; `load_csv` unconditionally evaluates
  `pd.to_datetime(df['period'])`, which raises `KeyError` when the
  column is absent (for the CoA upload as well, since `load_csv` is
  applied to both files).
* A left `merge` on `account_code` keeps left-row order and, per left
  row, right-table order of the matches; a left row with no match
  yields one joined row with null `category`/`subcategory`/`sign`.
* pandas-style sums (`Series.sum`, `GroupBy.sum` with the default
  `min_count=0`) skip `NaN`, and an all-`NaN` (or empty) column sums
  to `0`: modelled by `nanSum`.
* `groupby(..., dropna=False)` keeps null keys as ordinary groups.
  pandas additionally sorts the group keys (`sort=True` default); the
  model keeps first-occurrence key order, since no property proved
  here depends on the relative order of distinct groups.
* `sort_values('abs_driver', ascending=False)` uses numpy's
  `kind='quicksort'` (an unstable introsort) through a
  reverse/argsort/reverse in pandas; its tie order is an
  implementation detail of numpy.  The model uses a deterministic
  comparison-based descending sort as a stand-in; no theorem below
  about tie order is claimed from it.
-/

namespace PnlAssistant

/-- A calendar date, as produced by `pd.to_datetime` on the `period`
column (only the fields relevant to monthly truncation). -/
structure Date where
  year : Nat
  month : Nat
  day : Nat
deriving DecidableEq, Repr

/-- A monthly period, the result of `.dt.to_period('M')`. -/
abbrev PeriodM := Nat × Nat

/-- `Timestamp.to_period('M')`. -/
def Date.toPeriodM (d : Date) : PeriodM := (d.year, d.month)

/-- One parsed row of the uploaded P&L fact CSV.  The numeric fields
hold the parsed cell values; when the corresponding column is absent
from the file the field content is irrelevant (the pipeline replaces
the whole column by `0.0`, see `numericSafety`). -/
structure PnlRow where
  account_code : String
  period : Date
  actual : ℚ
  budget : ℚ
  prior_year : ℚ
  business_unit : Option String
  cost_center : Option String
deriving DecidableEq, Repr

/-- The uploaded P&L fact table: which columns are present, plus the
parsed rows. -/
structure PnlInput where
  hasAccountCode : Bool
  hasPeriod : Bool
  hasActual : Bool
  hasBudget : Bool
  hasPriorYear : Bool
  rows : List PnlRow
deriving DecidableEq, Repr

/-- One row of the chart-of-accounts mapping CSV.  `category`,
`subcategory` and `sign` cells may be empty (pandas `NaN`), hence
`Option`. -/
structure CoaRow where
  account_code : String
  category : Option String
  subcategory : Option String
  sign : Option ℚ
deriving DecidableEq, Repr

/-- The uploaded CoA table.  `hasPeriod` is required because
`load_csv` evaluates `pd.to_datetime(df['period'])` on this file
too. -/
structure CoaInput where
  hasAccountCode : Bool
  hasCategory : Bool
  hasSubcategory : Bool
  hasSign : Bool
  hasPeriod : Bool
  rows : List CoaRow
deriving DecidableEq, Repr

/-- The fatal errors the pipeline can raise before producing any
aggregate (pandas `KeyError` on a missing column). -/
inductive PipeError where
  | keyError : String → PipeError
deriving DecidableEq, Repr

/-- `load_csv` applied to the fact upload: `pd.read_csv` followed by
`df['period'] = pd.to_datetime(df['period'])`, which raises when the
`period` column is absent. -/
def load_csv_pnl (p : PnlInput) : Except PipeError PnlInput :=
  if p.hasPeriod then .ok p else .error (.keyError "period")

/-- `load_csv` applied to the CoA upload (the same function in the
source, so the CoA file also needs a parseable `period` column). -/
def load_csv_coa (c : CoaInput) : Except PipeError CoaInput :=
  if c.hasPeriod then .ok c else .error (.keyError "period")

/-- A row after the left join of the fact table with
`coa[['account_code','category','subcategory','sign']]`. -/
structure JoinedRow where
  account_code : String
  period : Date
  actual : ℚ
  budget : ℚ
  prior_year : ℚ
  business_unit : Option String
  cost_center : Option String
  category : Option String
  subcategory : Option String
  sign : Option ℚ
deriving DecidableEq, Repr

/-- The CoA rows matching an account code, in table order (the match
set of the left `merge`). -/
def coaMatches (coa : List CoaRow) (code : String) : List CoaRow :=
  coa.filter (fun m => m.account_code = code)

/-- The joined row of a fact row with no CoA match: the right-hand
columns are null (pandas `NaN`). -/
def nullJoin (r : PnlRow) : JoinedRow :=
  { account_code := r.account_code, period := r.period,
    actual := r.actual, budget := r.budget,
    prior_year := r.prior_year,
    business_unit := r.business_unit,
    cost_center := r.cost_center,
    category := none, subcategory := none, sign := none }

/-- The joined row pairing a fact row with one CoA match. -/
def matchJoin (r : PnlRow) (m : CoaRow) : JoinedRow :=
  { account_code := r.account_code, period := r.period,
    actual := r.actual, budget := r.budget,
    prior_year := r.prior_year,
    business_unit := r.business_unit,
    cost_center := r.cost_center,
    category := m.category, subcategory := m.subcategory,
    sign := m.sign }

/-- The joined rows produced from one fact row by
`pnl.merge(coa[...], on="account_code", how="left")`: one row per
match, or a single row with null mapping fields when there is no
match. -/
def mergeRow (coa : List CoaRow) (r : PnlRow) : List JoinedRow :=
  if coaMatches coa r.account_code = [] then [nullJoin r]
  else (coaMatches coa r.account_code).map (matchJoin r)

/-- The left join, preserving the fact-table row order. -/
def mergeTables (pnl : List PnlRow) (coa : List CoaRow) : List JoinedRow :=
  pnl.flatMap (mergeRow coa)

/-- Helper for `uniqueFirst`: keep the elements not yet seen, in
order, recording seen elements in the accumulator. -/
def uniqueFirstAux {α : Type} [DecidableEq α] (seen : List α) :
    List α → List α
  | [] => []
  | a :: l => if a ∈ seen then uniqueFirstAux seen l
              else a :: uniqueFirstAux (a :: seen) l

/-- Distinct values in first-occurrence order: pandas
`Series.unique()`. -/
def uniqueFirst {α : Type} [DecidableEq α] (l : List α) : List α :=
  uniqueFirstAux [] l

/-- `df[df['category'].isna()]['account_code'].unique()`: the
distinct account codes of joined rows with a null category. -/
def unmappedSet (joined : List JoinedRow) : List String :=
  uniqueFirst ((joined.filter (fun j => j.category = none)).map
    (fun j => j.account_code))

/-- Lines 57-60: `for col in ['actual','budget','prior_year']:
if col not in df.columns: df[col] = 0.0` — an absent numeric column
is replaced by the constant `0.0`. -/
def numericSafety (p : PnlInput) (j : JoinedRow) : JoinedRow :=
  { j with actual := if p.hasActual then j.actual else 0,
           budget := if p.hasBudget then j.budget else 0,
           prior_year := if p.hasPriorYear then j.prior_year else 0 }

/-- A joined row plus the three signed measures.  In pandas each
signed column is `value * sign`; when `sign` is `NaN` (unmapped row,
or an empty sign cell) the product is `NaN`, modelled by `none`. -/
structure SignedRow extends JoinedRow where
  actual_signed : Option ℚ
  budget_signed : Option ℚ
  prior_signed : Option ℚ
deriving DecidableEq, Repr

/-- Lines 63-65: the sign-convention columns. -/
def signRow (j : JoinedRow) : SignedRow :=
  { j with actual_signed := j.sign.map (fun s => j.actual * s),
           budget_signed := j.sign.map (fun s => j.budget * s),
           prior_signed := j.sign.map (fun s => j.prior_year * s) }

/-- The sign normalizer applied to the whole joined table. -/
def signRows (joined : List JoinedRow) : List SignedRow :=
  joined.map signRow

/-- The `View by` selector: `"Total"`, `"business_unit"` or
`"cost_center"`. -/
inductive View where
  | total
  | business_unit
  | cost_center
deriving DecidableEq, Repr, Inhabited

/-- `dff = df[df['period'].dt.to_period('M') == period]`. -/
def filterPeriod (rows : List SignedRow) (p : PeriodM) : List SignedRow :=
  rows.filter (fun r => r.period.toPeriodM = p)

/-- The joined table `df` after the merge and the numeric-safety
defaulting (lines 50-60). -/
def joinedTable (pnlIn : PnlInput) (coaIn : CoaInput) : List JoinedRow :=
  (mergeTables pnlIn.rows coaIn.rows).map (numericSafety pnlIn)

/-- The signed rows of the selected period (`dff`, line 74). -/
def selectedRows (pnlIn : PnlInput) (coaIn : CoaInput) (p : PeriodM) :
    List SignedRow :=
  filterPeriod (signRows (joinedTable pnlIn coaIn)) p

/-- The grouping key `group_cols + ['category','subcategory']`.  For
the `Total` view the organizational component is constantly `none`,
so grouping degenerates to `(category, subcategory)` as in the
source (`group_cols = []`). -/
abbrev GroupKey := Option String × Option String × Option String

/-- The organizational component of the group key. -/
def orgVal (v : View) (r : SignedRow) : Option String :=
  match v with
  | .total => none
  | .business_unit => r.business_unit
  | .cost_center => r.cost_center

/-- The full group key of a signed row under a view. -/
def groupKey (v : View) (r : SignedRow) : GroupKey :=
  (orgVal v r, r.category, r.subcategory)

/-- The group keys of `groupby(group_cols + ['category','subcategory'],
dropna=False)`: every key occurring in the data, null components
included, each once. -/
def groupKeys (v : View) (rows : List SignedRow) : List GroupKey :=
  uniqueFirst (rows.map (groupKey v))

/-- The rows of one group. -/
def groupRows (v : View) (rows : List SignedRow) (k : GroupKey) :
    List SignedRow :=
  rows.filter (fun r => groupKey v r = k)

/-- pandas sum over a nullable numeric column: `NaN` entries are
skipped, and an empty or all-`NaN` column sums to `0` (default
`min_count=0`). -/
def nanSum (l : List (Option ℚ)) : ℚ :=
  (l.map (fun x => x.getD 0)).sum

/-- The result of a float division, before the `replace` cleanup:
a finite value, a signed infinity, or `NaN` (from `0/0`). -/
inductive FVal where
  | num : ℚ → FVal
  | posInf : FVal
  | negInf : FVal
  | nan : FVal
deriving DecidableEq, Repr

/-- IEEE float division on finite operands. -/
def fdiv (x y : ℚ) : FVal :=
  if y = 0 then
    (if x = 0 then .nan else if 0 < x then .posInf else .negInf)
  else .num (x / y)

/-- `.replace([pd.NA, pd.NaT, float('inf'), -float('inf')], 0)`:
pandas `replace` matches float `NaN` against the NA-like scalars in
the list, so `NaN`, `+inf` and `-inf` all become `0`. -/
def replaceBad (v : FVal) : ℚ :=
  match v with
  | .num q => q
  | .posInf => 0
  | .negInf => 0
  | .nan => 0

/-- The guarded percent variance `(var_abs / budget.abs()).replace(...)`. -/
def varPct (var_abs budget : ℚ) : ℚ :=
  replaceBad (fdiv var_abs |budget|)

/-- One aggregated row of the standardized P&L (`piv`), with the
variance columns of lines 83-84 already attached. -/
structure PivotRow where
  org : Option String
  category : Option String
  subcategory : Option String
  actual : ℚ
  budget : ℚ
  prior : ℚ
  var_abs : ℚ
  var_pct : ℚ
deriving DecidableEq, Repr

/-- The pivot row of one group: `agg(actual=('actual_signed','sum'),
budget=('budget_signed','sum'), prior=('prior_signed','sum'))`
followed by the variance columns. -/
def mkPivotRow (v : View) (rows : List SignedRow) (k : GroupKey) :
    PivotRow :=
  let g := groupRows v rows k
  let a := nanSum (g.map (fun r => r.actual_signed))
  let b := nanSum (g.map (fun r => r.budget_signed))
  let pr := nanSum (g.map (fun r => r.prior_signed))
  { org := k.1, category := k.2.1, subcategory := k.2.2,
    actual := a, budget := b, prior := pr,
    var_abs := a - b, var_pct := varPct (a - b) b }

/-- The aggregated P&L table `piv` (lines 77-84). -/
def pivot (v : View) (rows : List SignedRow) : List PivotRow :=
  (groupKeys v rows).map (mkPivotRow v rows)

/-- A pivot row with the ranking column
`abs_driver = piv['var_abs'].abs()`. -/
structure DriverRow extends PivotRow where
  abs_driver : ℚ
deriving DecidableEq, Repr

/-- Insertion into a list already sorted descending by `abs_driver`. -/
def insertDesc (d : DriverRow) : List DriverRow → List DriverRow
  | [] => [d]
  | e :: l => if e.abs_driver < d.abs_driver then d :: e :: l
              else e :: insertDesc d l

/-- Deterministic descending sort by `abs_driver`, standing in for
`sort_values('abs_driver', ascending=False)` (whose tie order under
numpy `kind='quicksort'` is an implementation detail; nothing proved
here relies on the order of tied rows). -/
def sortDesc : List DriverRow → List DriverRow
  | [] => []
  | d :: l => insertDesc d (sortDesc l)

/-- Lines 90-92: attach `abs_driver`, sort descending, `head(10)`. -/
def drivers (piv : List PivotRow) : List DriverRow :=
  (sortDesc (piv.map (fun p => { p with abs_driver := |p.var_abs| }))).take 10

/-- The totals row (lines 97-99): column-wise sums of the pivot
table, with the variance columns recomputed from the sums. -/
structure TotalsRow where
  actual : ℚ
  budget : ℚ
  prior : ℚ
  var_abs : ℚ
  var_pct : ℚ
deriving DecidableEq, Repr, Inhabited

/-- `piv[['actual','budget','prior']].sum()` plus the recomputed
variance columns. -/
def totals (piv : List PivotRow) : TotalsRow :=
  let a := (piv.map (fun r => r.actual)).sum
  let b := (piv.map (fun r => r.budget)).sum
  let p := (piv.map (fun r => r.prior)).sum
  { actual := a, budget := b, prior := p,
    var_abs := a - b, var_pct := varPct (a - b) b }

/-- The run metadata of the export (lines 122-126). -/
structure RunMetadata where
  period : PeriodM
  view : View
  generated_by : String
deriving DecidableEq, Repr, Inhabited

/-- The assembled export payload: pivot table, drivers, totals and
metadata. -/
structure ExportPayload where
  pivot_table : List PivotRow
  driver_table : List DriverRow
  totals_row : TotalsRow
  meta : RunMetadata
deriving DecidableEq, Repr, Inhabited

/-- The full engine, from the two uploads and the two selectors to
the export payload, with the fatal `KeyError` sites in source order:
`load_csv(pnl)`, `load_csv(coa)`, the CoA column selection
`coa[['account_code','category','subcategory','sign']]`, and the
merge key `account_code` on the fact table. -/
def runPipeline (pnlIn : PnlInput) (coaIn : CoaInput) (p : PeriodM)
    (v : View) : Except PipeError ExportPayload :=
  if pnlIn.hasPeriod = false then .error (.keyError "period")
  else if coaIn.hasPeriod = false then .error (.keyError "period")
  else if (coaIn.hasAccountCode && coaIn.hasCategory &&
           coaIn.hasSubcategory && coaIn.hasSign) = false then
    .error (.keyError "coa columns")
  else if pnlIn.hasAccountCode = false then
    .error (.keyError "account_code")
  else
    let piv := pivot v (selectedRows pnlIn coaIn p)
    .ok { pivot_table := piv, driver_table := drivers piv,
          totals_row := totals piv,
          meta := { period := p, view := v,
                    generated_by := "P&L Analysis Assistant" } }

/-! ## Concrete test fixtures

Small concrete uploads used to evaluate the pipeline (matching the
scenarios of the specification, section 8). -/

/-- A January 2024 date. -/
def dJan : Date := ⟨2024, 1, 15⟩

/-- A revenue fact row: account 4000, actual 1000, budget 800,
prior year 900. -/
def rStd : PnlRow := ⟨"4000", dJan, 1000, 800, 900, none, none⟩

/-- A one-row fact upload with all columns present. -/
def pnlStd : PnlInput := ⟨true, true, true, true, true, [rStd]⟩

/-- A CoA upload mapping account 4000 with sign +1. -/
def coaStd : CoaInput :=
  ⟨true, true, true, true, true,
   [⟨"4000", some "Revenue", some "Product", some 1⟩]⟩

/-- The payload of the standard run. -/
def payloadStd : ExportPayload :=
  (runPipeline pnlStd coaStd (2024, 1) View.total).toOption.getD default

/-- A CoA upload that does not map account 4000. -/
def coaMiss : CoaInput :=
  ⟨true, true, true, true, true,
   [⟨"5000", some "Revenue", some "Product", some 1⟩]⟩

/-- A CoA row carrying the out-of-range sign value 2. -/
def mSign2 : CoaRow := ⟨"4000", some "Revenue", some "Product", some 2⟩

/-- A CoA upload whose only sign value is 2 (neither +1 nor -1). -/
def coaSign2 : CoaInput := ⟨true, true, true, true, true, [mSign2]⟩

/-- A CoA row that maps account 4000 but with a null category. -/
def mNullCat : CoaRow := ⟨"4000", none, some "Misc", some 1⟩

/-- A CoA upload mapping account 4000 to a null category. -/
def coaNullCat : CoaInput := ⟨true, true, true, true, true, [mNullCat]⟩

/-- A fact upload whose only row has budget exactly 0. -/
def pnlZeroBudget : PnlInput :=
  ⟨true, true, true, true, true,
   [⟨"4000", dJan, 1000, 0, 900, none, none⟩]⟩

/-- The payload of the zero-budget run. -/
def payloadZeroBudget : ExportPayload :=
  (runPipeline pnlZeroBudget coaStd (2024, 1) View.total).toOption.getD
    default

/-- A two-row fact upload: revenue over budget, costs under budget. -/
def pnlTwo : PnlInput :=
  ⟨true, true, true, true, true,
   [⟨"4000", dJan, 1000, 800, 900, none, none⟩,
    ⟨"5000", dJan, 300, 400, 100, none, none⟩]⟩

/-- A CoA upload mapping both accounts of `pnlTwo` with sign +1. -/
def coaTwo : CoaInput :=
  ⟨true, true, true, true, true,
   [⟨"4000", some "Revenue", some "Product", some 1⟩,
    ⟨"5000", some "Costs", some "Ops", some 1⟩]⟩

/-- The payload of the two-row run. -/
def payloadTwo : ExportPayload :=
  (runPipeline pnlTwo coaTwo (2024, 1) View.total).toOption.getD default

/-- The standard fact upload with the `actual` column absent. -/
def pnlNoActual : PnlInput := ⟨true, true, false, true, true, [rStd]⟩

/-- The standard fact upload with the `period` column absent. -/
def pnlNoPeriod : PnlInput := ⟨true, false, true, true, true, [rStd]⟩

/-- Decidable equality of pipeline results, for evaluating the
pipeline on concrete inputs. -/
instance {ε α : Type} [DecidableEq ε] [DecidableEq α] :
    DecidableEq (Except ε α) := fun a b =>
  match a, b with
  | .ok x, .ok y =>
      if h : x = y then .isTrue (by rw [h])
      else .isFalse (fun he => h (Except.ok.inj he))
  | .error x, .error y =>
      if h : x = y then .isTrue (by rw [h])
      else .isFalse (fun he => h (Except.error.inj he))
  | .ok _, .error _ => .isFalse (fun he => Except.noConfusion he)
  | .error _, .ok _ => .isFalse (fun he => Except.noConfusion he)

/-! ## Basic lemmas about the pipeline building blocks -/

/-- Membership in `uniqueFirstAux`: an element is kept iff it occurs
in the list and was not already seen. -/
theorem mem_uniqueFirstAux {α : Type} [DecidableEq α] (l : List α) :
    ∀ (seen : List α) (a : α),
      a ∈ uniqueFirstAux seen l ↔ (a ∈ l ∧ a ∉ seen) := by
  induction l with
  | nil => intro seen a; simp [uniqueFirstAux]
  | cons b l ih =>
      intro seen a
      by_cases hb : b ∈ seen
      · rw [uniqueFirstAux, if_pos hb, ih]
        simp only [List.mem_cons]
        constructor
        · exact fun h => ⟨Or.inr h.1, h.2⟩
        · rintro ⟨h1 | h1, h2⟩
          · exact absurd (h1 ▸ hb) h2
          · exact ⟨h1, h2⟩
      · rw [uniqueFirstAux, if_neg hb]
        simp only [List.mem_cons, ih, List.mem_cons]
        by_cases hab : a = b
        · subst hab; tauto
        · tauto

/-- `uniqueFirst` keeps exactly the elements of the list. -/
theorem mem_uniqueFirst {α : Type} [DecidableEq α] (l : List α) (a : α) :
    a ∈ uniqueFirst l ↔ a ∈ l := by
  rw [uniqueFirst, mem_uniqueFirstAux]
  simp

/-- `uniqueFirstAux` never produces duplicates. -/
theorem nodup_uniqueFirstAux {α : Type} [DecidableEq α] (l : List α) :
    ∀ seen : List α, (uniqueFirstAux seen l).Nodup := by
  induction l with
  | nil => intro seen; simp [uniqueFirstAux]
  | cons b l ih =>
      intro seen
      by_cases hb : b ∈ seen
      · rw [uniqueFirstAux, if_pos hb]; exact ih seen
      · rw [uniqueFirstAux, if_neg hb]
        refine List.nodup_cons.mpr ⟨?_, ih _⟩
        intro hmem
        rw [mem_uniqueFirstAux] at hmem
        exact hmem.2 (List.mem_cons_self b seen)

/-- `uniqueFirst` produces a duplicate-free list. -/
theorem nodup_uniqueFirst {α : Type} [DecidableEq α] (l : List α) :
    (uniqueFirst l).Nodup :=
  nodup_uniqueFirstAux l []

/-- Summing an indicator that fires on a key not in the list gives 0. -/
theorem sum_map_ite_zero {α M : Type} [AddCommMonoid M] [DecidableEq α]
    (ks : List α) (k0 : α) (c : M) (h : k0 ∉ ks) :
    (ks.map (fun k => if k0 = k then c else 0)).sum = 0 := by
  induction ks with
  | nil => simp
  | cons k ks ih =>
      simp only [List.mem_cons, not_or] at h
      simp [if_neg h.1, ih h.2]

/-- Summing an indicator over a duplicate-free list containing the
key gives the value exactly once. -/
theorem sum_map_ite_single {α M : Type} [AddCommMonoid M] [DecidableEq α]
    (ks : List α) (k0 : α) (c : M) (hnd : ks.Nodup) (hm : k0 ∈ ks) :
    (ks.map (fun k => if k0 = k then c else 0)).sum = c := by
  induction ks with
  | nil => cases hm
  | cons k ks ih =>
      rw [List.nodup_cons] at hnd
      rcases List.mem_cons.mp hm with h | h
      · subst h
        simp [sum_map_ite_zero ks k0 c hnd.1]
      · have hne : k0 ≠ k := fun e => hnd.1 (e ▸ h)
        simp [if_neg hne, ih hnd.2 h]

/-- Summing group-wise over a duplicate-free covering key list equals
summing over all rows: the group decomposition is a partition. -/
theorem sum_filter_partition {α κ M : Type} [DecidableEq κ]
    [AddCommMonoid M] (key : α → κ) (f : α → M) (ks : List κ)
    (rows : List α) (hnd : ks.Nodup) (hcov : ∀ r ∈ rows, key r ∈ ks) :
    (ks.map (fun k => ((rows.filter (fun r => key r = k)).map f).sum)).sum
      = (rows.map f).sum := by
  induction rows with
  | nil => simp
  | cons r rows ih =>
      have hr : key r ∈ ks := hcov r (List.mem_cons_self r rows)
      have hcov2 : ∀ x ∈ rows, key x ∈ ks :=
        fun x hx => hcov x (List.mem_cons_of_mem r hx)
      have hstep :
          (ks.map (fun k =>
            (((r :: rows).filter (fun x => key x = k)).map f).sum))
          = ks.map (fun k => ((if key r = k then f r else 0) +
              ((rows.filter (fun x => key x = k)).map f).sum)) := by
        apply List.map_congr_left
        intro k _
        by_cases hkey : key r = k
        · simp [List.filter_cons, hkey]
        · simp [List.filter_cons, hkey]
      rw [hstep, List.sum_map_add,
        sum_map_ite_single ks (key r) (f r) hnd hr, ih hcov2]
      simp

/-- The pivot's group decomposition is a partition of the filtered
rows: group-wise sums of any measure add up to the overall sum. -/
theorem groups_sum {M : Type} [AddCommMonoid M] (v : View)
    (rows : List SignedRow) (f : SignedRow → M) :
    ((groupKeys v rows).map
        (fun k => ((groupRows v rows k).map f).sum)).sum
      = (rows.map f).sum := by
  unfold groupKeys groupRows
  exact sum_filter_partition (groupKey v) f _ rows
    (nodup_uniqueFirst _)
    (fun r hr => (mem_uniqueFirst _ _).mpr (List.mem_map_of_mem _ hr))

/-- The guarded percent variance equals the defined-zero policy of
the specification: ordinary division when the denominator is
nonzero, and exactly `0` when it is zero. -/
theorem varPct_eq (x b : ℚ) :
    varPct x b = if b = 0 then 0 else x / |b| := by
  by_cases hb : b = 0
  · subst hb
    by_cases hx : x = 0
    · simp [varPct, fdiv, replaceBad, hx]
    · by_cases hx2 : 0 < x <;>
        simp [varPct, fdiv, replaceBad, hx, hx2]
  · have habs : ¬(|b| = 0) := fun h => hb (abs_eq_zero.mp h)
    simp [varPct, fdiv, replaceBad, habs, hb]

/-- With a duplicate-free CoA key column, the match set of a mapped
code is exactly its CoA row. -/
theorem coaMatches_sub_single {coa : List CoaRow}
    (hnd : (coa.map (fun m => m.account_code)).Nodup)
    (m : CoaRow) (hm : m ∈ coa) :
    coaMatches coa m.account_code = [m] := by
  induction coa with
  | nil => cases hm
  | cons a coa ih =>
      rw [List.map_cons, List.nodup_cons] at hnd
      rcases List.mem_cons.mp hm with h | h
      · subst h
        unfold coaMatches
        rw [List.filter_cons]
        have hnil : coa.filter
            (fun x => decide (x.account_code = m.account_code)) = [] := by
          rw [List.filter_eq_nil_iff]
          intro b hb
          simp only [decide_eq_true_eq]
          intro he
          exact hnd.1 (he ▸ List.mem_map_of_mem _ hb)
        simp [hnil]
      · have hne : a.account_code ≠ m.account_code := by
          intro he
          exact hnd.1 (he ▸ List.mem_map_of_mem _ h)
        unfold coaMatches at *
        rw [List.filter_cons]
        simp only [hne, decide_eq_true_eq, if_neg]
        exact ih hnd.2 h

/-- With a duplicate-free CoA key column, each fact row yields
exactly one joined row. -/
theorem mergeRow_length {coa : List CoaRow}
    (hnd : (coa.map (fun m => m.account_code)).Nodup) (r : PnlRow) :
    (mergeRow coa r).length = 1 := by
  rw [mergeRow]
  by_cases h : coaMatches coa r.account_code = []
  · simp [h]
  · rw [if_neg h]
    obtain ⟨m, ms, hc⟩ := List.exists_cons_of_ne_nil h
    have hmem : m ∈ coaMatches coa r.account_code := by
      rw [hc]; exact List.mem_cons_self m ms
    have h1 : m ∈ coa := (List.mem_filter.mp hmem).1
    have h2 : m.account_code = r.account_code := by
      simpa using (List.mem_filter.mp hmem).2
    have hone : coaMatches coa r.account_code = [m] :=
      h2 ▸ coaMatches_sub_single hnd m h1
    simp [hone]

/-- Every joined row produced from a fact row keeps its account code. -/
theorem mergeRow_code (coa : List CoaRow) (r : PnlRow) :
    ∀ j ∈ mergeRow coa r, j.account_code = r.account_code := by
  intro j hj
  rw [mergeRow] at hj
  by_cases h : coaMatches coa r.account_code = []
  · rw [if_pos h] at hj
    simp only [List.mem_singleton] at hj
    subst hj; rfl
  · rw [if_neg h] at hj
    obtain ⟨m, _, hm⟩ := List.mem_map.mp hj
    subst hm; rfl

/-- `mergeRow` never drops a fact row. -/
theorem mergeRow_ne_nil (coa : List CoaRow) (r : PnlRow) :
    mergeRow coa r ≠ [] := by
  rw [mergeRow]
  by_cases h : coaMatches coa r.account_code = []
  · simp [h]
  · rw [if_neg h]
    simpa [List.map_eq_nil_iff] using h

/-- Any joined row with a null category contributes its account code
to the unmapped set. -/
theorem mem_unmappedSet {joined : List JoinedRow} {j : JoinedRow}
    (hj : j ∈ joined) (hc : j.category = none) :
    j.account_code ∈ unmappedSet joined := by
  unfold unmappedSet
  rw [mem_uniqueFirst]
  exact List.mem_map_of_mem _ (List.mem_filter.mpr ⟨hj, by simp [hc]⟩)

/-- Summing the constant 1 counts the elements. -/
theorem sum_map_one {α : Type} (l : List α) :
    (l.map (fun _ => (1 : ℕ))).sum = l.length := by
  induction l with
  | nil => rfl
  | cons a l ih => simp [ih, Nat.add_comm]

/-- The group sizes of the pivot add up to the number of filtered
rows: `groupby(..., dropna=False)` drops nothing, null keys
included. -/
theorem groups_length (v : View) (rows : List SignedRow) :
    ((groupKeys v rows).map (fun k => (groupRows v rows k).length)).sum
      = rows.length := by
  have h := groups_sum (M := ℕ) v rows (fun _ => 1)
  rw [sum_map_one] at h
  rw [← h]
  refine congrArg List.sum (List.map_congr_left ?_)
  intro k _
  rw [sum_map_one]

/-- A group-wise aggregated measure sums to the measure's
`NaN`-skipping sum over all rows. -/
theorem pivot_sum_measure (v : View) (rows : List SignedRow)
    (get : PivotRow → ℚ) (meas : SignedRow → Option ℚ)
    (hfield : ∀ k, get (mkPivotRow v rows k)
      = nanSum ((groupRows v rows k).map meas)) :
    ((pivot v rows).map get).sum
      = (rows.map (fun r => (meas r).getD 0)).sum := by
  unfold pivot
  rw [List.map_map]
  have hcong : (groupKeys v rows).map (get ∘ mkPivotRow v rows)
      = (groupKeys v rows).map (fun k =>
          ((groupRows v rows k).map (fun r => (meas r).getD 0)).sum) := by
    apply List.map_congr_left
    intro k _
    show get (mkPivotRow v rows k) = _
    rw [hfield k]
    unfold nanSum
    rw [List.map_map]
    rfl
  rw [hcong, groups_sum]

/-- With a duplicate-free CoA key column, the join conserves the row
count. -/
theorem mergeTables_length {coa : List CoaRow}
    (hnd : (coa.map (fun m => m.account_code)).Nodup)
    (pnl : List PnlRow) :
    (mergeTables pnl coa).length = pnl.length := by
  induction pnl with
  | nil => rfl
  | cons r pnl ih =>
      unfold mergeTables at ih ⊢
      rw [List.flatMap_cons, List.length_append, mergeRow_length hnd, ih]
      simp [Nat.add_comm]

/-- When all required columns are present the pipeline reaches the
aggregation stage and produces its payload. -/
theorem runPipeline_ok_of_columns (pnlIn : PnlInput) (coaIn : CoaInput)
    (p : PeriodM) (v : View)
    (h1 : pnlIn.hasPeriod = true) (h2 : pnlIn.hasAccountCode = true)
    (h3 : coaIn.hasPeriod = true) (h4 : coaIn.hasAccountCode = true)
    (h5 : coaIn.hasCategory = true) (h6 : coaIn.hasSubcategory = true)
    (h7 : coaIn.hasSign = true) :
    runPipeline pnlIn coaIn p v = .ok
      { pivot_table := pivot v (selectedRows pnlIn coaIn p),
        driver_table := drivers (pivot v (selectedRows pnlIn coaIn p)),
        totals_row := totals (pivot v (selectedRows pnlIn coaIn p)),
        meta := { period := p, view := v,
                  generated_by := "P&L Analysis Assistant" } } := by
  unfold runPipeline
  rw [h1, h2, h3, h4, h5, h6, h7]
  simp

/-- Inversion of a successful pipeline run: the payload's tables are
the pivot of the filtered signed rows, with drivers and totals
computed from that pivot. -/
theorem runPipeline_ok_parts {pnlIn : PnlInput} {coaIn : CoaInput}
    {p : PeriodM} {v : View} {payload : ExportPayload}
    (h : runPipeline pnlIn coaIn p v = .ok payload) :
    payload.pivot_table = pivot v (selectedRows pnlIn coaIn p)
    ∧ payload.totals_row = totals payload.pivot_table
    ∧ payload.driver_table = drivers payload.pivot_table
    ∧ payload.meta = { period := p, view := v,
                       generated_by := "P&L Analysis Assistant" } := by
  unfold runPipeline at h
  split at h
  · simp at h
  split at h
  · simp at h
  split at h
  · simp at h
  split at h
  · simp at h
  rw [Except.ok.injEq] at h
  subst h
  exact ⟨rfl, rfl, rfl, rfl⟩

/-! ## The claims -/

section Claims

attribute [local semireducible] Rat.mul Rat.add Rat.sub Rat.inv

/-- Claim C1, counterexample: in the run joining `pnlStd` against
`coaMiss` (which does not map account 4000), the single joined row
has a null sign, yet its `actual_signed` is null (`NaN`), not its
`actual` value 1000 — the row does not pass through the sign
normalizer unchanged, so a null sign is not treated as `+1`. -/
theorem null_sign_not_identity_cex :
    ((signRows (joinedTable pnlStd coaMiss)).map (fun r => r.sign) = [none])
    ∧ ((signRows (joinedTable pnlStd coaMiss)).map
        (fun r => r.actual_signed) = [none])
    ∧ ((signRows (joinedTable pnlStd coaMiss)).map
        (fun r => r.budget_signed) = [none])
    ∧ ((signRows (joinedTable pnlStd coaMiss)).map
        (fun r => r.prior_signed) = [none])
    ∧ ((signRows (joinedTable pnlStd coaMiss)).map
        (fun r => some r.actual) = [some 1000])
    ∧ ((none : Option ℚ) ≠ some 1000) := by decide

/-- Claim C1, amended: a joined row with a null sign gets null
(`NaN`) signed measures — `value * NaN` is `NaN`, not the value —
and the `NaN`-skipping aggregation therefore counts such a row as
contributing 0 to every group sum. -/
theorem null_sign_gives_null_signed (j : JoinedRow) (h : j.sign = none) :
    (signRow j).actual_signed = none
    ∧ (signRow j).budget_signed = none
    ∧ (signRow j).prior_signed = none
    ∧ (signRow j).actual_signed.getD 0 = 0
    ∧ (signRow j).budget_signed.getD 0 = 0
    ∧ (signRow j).prior_signed.getD 0 = 0 := by
  simp [signRow, h]

/-- Witness for the amended C1 at the concrete unmapped join of the
standard fact row. -/
theorem null_sign_gives_null_signed_witness :
    (signRow (nullJoin rStd)).actual_signed = none
    ∧ (signRow (nullJoin rStd)).budget_signed = none
    ∧ (signRow (nullJoin rStd)).prior_signed = none
    ∧ (signRow (nullJoin rStd)).actual_signed.getD 0 = 0
    ∧ (signRow (nullJoin rStd)).budget_signed.getD 0 = 0
    ∧ (signRow (nullJoin rStd)).prior_signed.getD 0 = 0 :=
  null_sign_gives_null_signed (nullJoin rStd) rfl

/-- Claim C2: in every successful run, `var_pct` is exactly 0
whenever `budget = 0`, for every pivot row and for the totals row —
the guarded division replaces the float infinities and `NaN` results
of a zero denominator by 0, never surfacing them. -/
theorem var_pct_zero_when_budget_zero (pnlIn : PnlInput)
    (coaIn : CoaInput) (p : PeriodM) (v : View) (payload : ExportPayload)
    (h : runPipeline pnlIn coaIn p v = .ok payload) :
    (∀ row ∈ payload.pivot_table, row.budget = 0 → row.var_pct = 0)
    ∧ (payload.totals_row.budget = 0 → payload.totals_row.var_pct = 0) := by
  obtain ⟨hp, ht, -, -⟩ := runPipeline_ok_parts h
  constructor
  · intro row hrow hb
    rw [hp] at hrow
    unfold pivot at hrow
    obtain ⟨k, -, hkrow⟩ := List.mem_map.mp hrow
    have hvp : row.var_pct = varPct row.var_abs row.budget := by
      rw [← hkrow]; rfl
    rw [hvp, varPct_eq, if_pos hb]
  · intro hb
    rw [ht] at hb ⊢
    have hvp : (totals payload.pivot_table).var_pct
        = varPct (totals payload.pivot_table).var_abs
            (totals payload.pivot_table).budget := rfl
    rw [hvp, varPct_eq, if_pos hb]

/-- Witness for C2 at the zero-budget run. -/
theorem var_pct_zero_when_budget_zero_witness :
    (∀ row ∈ payloadZeroBudget.pivot_table,
        row.budget = 0 → row.var_pct = 0)
    ∧ (payloadZeroBudget.totals_row.budget = 0 →
        payloadZeroBudget.totals_row.var_pct = 0) :=
  var_pct_zero_when_budget_zero pnlZeroBudget coaStd (2024, 1)
    View.total payloadZeroBudget (by decide)

/-- Claim C3: in every successful run, the pivot table's `actual`
column sums to the (pandas `NaN`-skipping) sum of `actual_signed`
over the signed rows of the selected period; likewise for `budget`
versus `budget_signed` and `prior` versus `prior_signed` —
aggregation conserves totals. -/
theorem aggregation_conserves_totals (pnlIn : PnlInput)
    (coaIn : CoaInput) (p : PeriodM) (v : View) (payload : ExportPayload)
    (h : runPipeline pnlIn coaIn p v = .ok payload) :
    ((payload.pivot_table.map (fun r => r.actual)).sum
      = ((selectedRows pnlIn coaIn p).map
          (fun r => r.actual_signed.getD 0)).sum)
    ∧ ((payload.pivot_table.map (fun r => r.budget)).sum
      = ((selectedRows pnlIn coaIn p).map
          (fun r => r.budget_signed.getD 0)).sum)
    ∧ ((payload.pivot_table.map (fun r => r.prior)).sum
      = ((selectedRows pnlIn coaIn p).map
          (fun r => r.prior_signed.getD 0)).sum) := by
  obtain ⟨hp, -, -, -⟩ := runPipeline_ok_parts h
  rw [hp]
  exact ⟨pivot_sum_measure v (selectedRows pnlIn coaIn p)
      (fun r => r.actual) (fun r => r.actual_signed) (fun k => rfl),
    pivot_sum_measure v (selectedRows pnlIn coaIn p)
      (fun r => r.budget) (fun r => r.budget_signed) (fun k => rfl),
    pivot_sum_measure v (selectedRows pnlIn coaIn p)
      (fun r => r.prior) (fun r => r.prior_signed) (fun k => rfl)⟩

/-- Witness for C3 at the standard run. -/
theorem aggregation_conserves_totals_witness :
    ((payloadStd.pivot_table.map (fun r => r.actual)).sum
      = ((selectedRows pnlStd coaStd (2024, 1)).map
          (fun r => r.actual_signed.getD 0)).sum)
    ∧ ((payloadStd.pivot_table.map (fun r => r.budget)).sum
      = ((selectedRows pnlStd coaStd (2024, 1)).map
          (fun r => r.budget_signed.getD 0)).sum)
    ∧ ((payloadStd.pivot_table.map (fun r => r.prior)).sum
      = ((selectedRows pnlStd coaStd (2024, 1)).map
          (fun r => r.prior_signed.getD 0)).sum) :=
  aggregation_conserves_totals pnlStd coaStd (2024, 1) View.total
    payloadStd (by decide)

/-- Claim C4: with the required columns present and a duplicate-free
CoA key column, the left join conserves the fact row count, every
fact row is retained, fact rows with no CoA match contribute their
code to the unmapped set, the pipeline completes without a fatal
error, every filtered row's group key (null components included) is
a pivot group key, and the pivot groups partition the filtered rows. -/
theorem unmapped_rows_never_lost (pnlIn : PnlInput) (coaIn : CoaInput)
    (p : PeriodM) (v : View)
    (h1 : pnlIn.hasPeriod = true) (h2 : pnlIn.hasAccountCode = true)
    (h3 : coaIn.hasPeriod = true) (h4 : coaIn.hasAccountCode = true)
    (h5 : coaIn.hasCategory = true) (h6 : coaIn.hasSubcategory = true)
    (h7 : coaIn.hasSign = true)
    (hnd : (coaIn.rows.map (fun m => m.account_code)).Nodup) :
    (mergeTables pnlIn.rows coaIn.rows).length = pnlIn.rows.length
    ∧ (∀ r ∈ pnlIn.rows, ∃ j ∈ mergeTables pnlIn.rows coaIn.rows,
        j.account_code = r.account_code)
    ∧ (∀ r ∈ pnlIn.rows, coaMatches coaIn.rows r.account_code = [] →
        r.account_code ∈ unmappedSet (mergeTables pnlIn.rows coaIn.rows))
    ∧ runPipeline pnlIn coaIn p v = .ok
        { pivot_table := pivot v (selectedRows pnlIn coaIn p),
          driver_table := drivers (pivot v (selectedRows pnlIn coaIn p)),
          totals_row := totals (pivot v (selectedRows pnlIn coaIn p)),
          meta := { period := p, view := v,
                    generated_by := "P&L Analysis Assistant" } }
    ∧ (∀ sr ∈ selectedRows pnlIn coaIn p,
        groupKey v sr ∈ groupKeys v (selectedRows pnlIn coaIn p))
    ∧ (((groupKeys v (selectedRows pnlIn coaIn p)).map
          (fun k => (groupRows v (selectedRows pnlIn coaIn p) k).length)).sum
        = (selectedRows pnlIn coaIn p).length) := by
  refine ⟨mergeTables_length hnd pnlIn.rows, ?_, ?_,
    runPipeline_ok_of_columns pnlIn coaIn p v h1 h2 h3 h4 h5 h6 h7,
    ?_, groups_length v (selectedRows pnlIn coaIn p)⟩
  · intro r hr
    obtain ⟨j, hj⟩ :=
      List.exists_mem_of_ne_nil _ (mergeRow_ne_nil coaIn.rows r)
    refine ⟨j, ?_, mergeRow_code coaIn.rows r j hj⟩
    unfold mergeTables
    exact List.mem_flatMap.mpr ⟨r, hr, hj⟩
  · intro r hr hmatch
    have hrow : nullJoin r ∈ mergeRow coaIn.rows r := by
      rw [mergeRow, if_pos hmatch]
      exact List.mem_singleton_self _
    have hmem : nullJoin r ∈ mergeTables pnlIn.rows coaIn.rows := by
      unfold mergeTables
      exact List.mem_flatMap.mpr ⟨r, hr, hrow⟩
    exact mem_unmappedSet hmem rfl
  · intro sr hsr
    unfold groupKeys
    rw [mem_uniqueFirst]
    exact List.mem_map_of_mem _ hsr

/-- Witness for C4 at the run joining `pnlStd` against `coaMiss`,
whose only fact row is unmapped. -/
theorem unmapped_rows_never_lost_witness :
    (mergeTables pnlStd.rows coaMiss.rows).length = pnlStd.rows.length
    ∧ (∀ r ∈ pnlStd.rows, ∃ j ∈ mergeTables pnlStd.rows coaMiss.rows,
        j.account_code = r.account_code)
    ∧ (∀ r ∈ pnlStd.rows, coaMatches coaMiss.rows r.account_code = [] →
        r.account_code ∈ unmappedSet (mergeTables pnlStd.rows coaMiss.rows))
    ∧ runPipeline pnlStd coaMiss (2024, 1) View.total = .ok
        { pivot_table := pivot View.total
            (selectedRows pnlStd coaMiss (2024, 1)),
          driver_table := drivers (pivot View.total
            (selectedRows pnlStd coaMiss (2024, 1))),
          totals_row := totals (pivot View.total
            (selectedRows pnlStd coaMiss (2024, 1))),
          meta := { period := (2024, 1), view := View.total,
                    generated_by := "P&L Analysis Assistant" } }
    ∧ (∀ sr ∈ selectedRows pnlStd coaMiss (2024, 1),
        groupKey View.total sr
          ∈ groupKeys View.total (selectedRows pnlStd coaMiss (2024, 1)))
    ∧ (((groupKeys View.total (selectedRows pnlStd coaMiss (2024, 1))).map
          (fun k => (groupRows View.total
            (selectedRows pnlStd coaMiss (2024, 1)) k).length)).sum
        = (selectedRows pnlStd coaMiss (2024, 1)).length) :=
  unmapped_rows_never_lost pnlStd coaMiss (2024, 1) View.total
    rfl rfl rfl rfl rfl rfl rfl (by decide)

/-- Claim C6: in every successful run the totals row is recomputed
column-wise from the pivot sums: its `var_abs` is the difference of
the summed `actual` and `budget`, and its `var_pct` is that
difference divided by the absolute summed budget (0 when the summed
budget is 0) — not an aggregate of the per-row percentages. -/
theorem totals_recomputed_from_sums (pnlIn : PnlInput)
    (coaIn : CoaInput) (p : PeriodM) (v : View) (payload : ExportPayload)
    (h : runPipeline pnlIn coaIn p v = .ok payload) :
    payload.totals_row.actual
      = (payload.pivot_table.map (fun r => r.actual)).sum
    ∧ payload.totals_row.budget
      = (payload.pivot_table.map (fun r => r.budget)).sum
    ∧ payload.totals_row.prior
      = (payload.pivot_table.map (fun r => r.prior)).sum
    ∧ payload.totals_row.var_abs
      = (payload.pivot_table.map (fun r => r.actual)).sum
        - (payload.pivot_table.map (fun r => r.budget)).sum
    ∧ ((payload.pivot_table.map (fun r => r.budget)).sum ≠ 0 →
        payload.totals_row.var_pct
          = ((payload.pivot_table.map (fun r => r.actual)).sum
              - (payload.pivot_table.map (fun r => r.budget)).sum)
            / |(payload.pivot_table.map (fun r => r.budget)).sum|)
    ∧ ((payload.pivot_table.map (fun r => r.budget)).sum = 0 →
        payload.totals_row.var_pct = 0) := by
  obtain ⟨-, ht, -, -⟩ := runPipeline_ok_parts h
  rw [ht]
  refine ⟨rfl, rfl, rfl, rfl, ?_, ?_⟩
  · intro hb
    have hvp : (totals payload.pivot_table).var_pct
        = varPct ((payload.pivot_table.map (fun r => r.actual)).sum
            - (payload.pivot_table.map (fun r => r.budget)).sum)
          ((payload.pivot_table.map (fun r => r.budget)).sum) := rfl
    rw [hvp, varPct_eq, if_neg hb]
  · intro hb
    have hvp : (totals payload.pivot_table).var_pct
        = varPct ((payload.pivot_table.map (fun r => r.actual)).sum
            - (payload.pivot_table.map (fun r => r.budget)).sum)
          ((payload.pivot_table.map (fun r => r.budget)).sum) := rfl
    rw [hvp, varPct_eq, if_pos hb]

/-- Witness for C6 at the two-row run, where additionally the totals
percentage (1/12) differs from both the sum (0) and the mean (0) of
the per-row percentages. -/
theorem totals_recomputed_from_sums_witness :
    (payloadTwo.totals_row.actual
        = (payloadTwo.pivot_table.map (fun r => r.actual)).sum
      ∧ payloadTwo.totals_row.budget
        = (payloadTwo.pivot_table.map (fun r => r.budget)).sum
      ∧ payloadTwo.totals_row.prior
        = (payloadTwo.pivot_table.map (fun r => r.prior)).sum
      ∧ payloadTwo.totals_row.var_abs
        = (payloadTwo.pivot_table.map (fun r => r.actual)).sum
          - (payloadTwo.pivot_table.map (fun r => r.budget)).sum
      ∧ ((payloadTwo.pivot_table.map (fun r => r.budget)).sum ≠ 0 →
          payloadTwo.totals_row.var_pct
            = ((payloadTwo.pivot_table.map (fun r => r.actual)).sum
                - (payloadTwo.pivot_table.map (fun r => r.budget)).sum)
              / |(payloadTwo.pivot_table.map (fun r => r.budget)).sum|)
      ∧ ((payloadTwo.pivot_table.map (fun r => r.budget)).sum = 0 →
          payloadTwo.totals_row.var_pct = 0))
    ∧ payloadTwo.totals_row.var_pct
        ≠ (payloadTwo.pivot_table.map (fun r => r.var_pct)).sum
    ∧ payloadTwo.totals_row.var_pct
        ≠ (payloadTwo.pivot_table.map (fun r => r.var_pct)).sum
          / (payloadTwo.pivot_table.length : ℚ) :=
  ⟨totals_recomputed_from_sums pnlTwo coaTwo (2024, 1) View.total
      payloadTwo (by decide),
    by decide, by decide⟩

/-- Claim C7, counterexample: with the `actual` column absent from
the fact upload, the pipeline does not fail — it defaults the column
to 0.0 and completes, producing a pivot with `actual = 0`. -/
theorem missing_numeric_defaulted_cex :
    ((runPipeline pnlNoActual coaStd (2024, 1) View.total).toOption.map
        (fun pl => pl.pivot_table.map (fun r => r.actual))) = some [0]
    ∧ (runPipeline pnlNoActual coaStd (2024, 1) View.total).toOption ≠ none
    ∧ pnlNoActual.hasActual = false := by decide

/-- Claim C7, amended: ingestion aborts before aggregation when the
fact upload's `period` or `account_code` column is missing; a
missing `actual`, `budget` or `prior_year` column is defaulted to
0.0 and never causes an error. -/
theorem ingestion_error_policy (pnlIn : PnlInput) (coaIn : CoaInput)
    (p : PeriodM) (v : View) :
    (pnlIn.hasPeriod = false →
      runPipeline pnlIn coaIn p v = .error (.keyError "period"))
    ∧ (pnlIn.hasPeriod = true → coaIn.hasPeriod = true →
        coaIn.hasAccountCode = true → coaIn.hasCategory = true →
        coaIn.hasSubcategory = true → coaIn.hasSign = true →
        pnlIn.hasAccountCode = false →
        runPipeline pnlIn coaIn p v = .error (.keyError "account_code"))
    ∧ (pnlIn.hasPeriod = true → coaIn.hasPeriod = true →
        coaIn.hasAccountCode = true → coaIn.hasCategory = true →
        coaIn.hasSubcategory = true → coaIn.hasSign = true →
        pnlIn.hasAccountCode = true →
        runPipeline pnlIn coaIn p v = .ok
          { pivot_table := pivot v (selectedRows pnlIn coaIn p),
            driver_table := drivers (pivot v (selectedRows pnlIn coaIn p)),
            totals_row := totals (pivot v (selectedRows pnlIn coaIn p)),
            meta := { period := p, view := v,
                      generated_by := "P&L Analysis Assistant" } }) := by
  refine ⟨?_, ?_, ?_⟩
  · intro hp
    unfold runPipeline
    rw [hp]
    simp
  · intro h1 h3 h4 h5 h6 h7 h2
    unfold runPipeline
    rw [h1, h2, h3, h4, h5, h6, h7]
    simp
  · intro h1 h3 h4 h5 h6 h7 h2
    exact runPipeline_ok_of_columns pnlIn coaIn p v h1 h2 h3 h4 h5 h6 h7

/-- Witness for the amended C7: a fact upload without a `period`
column aborts with the `KeyError` from `pd.to_datetime`. -/
theorem ingestion_error_policy_witness :
    runPipeline pnlNoPeriod coaStd (2024, 1) View.total
      = .error (.keyError "period") :=
  (ingestion_error_policy pnlNoPeriod coaStd (2024, 1) View.total).1 rfl

/-- Claim C8, counterexample: a CoA sign of 2 (neither +1 nor -1) is
silently applied as a multiplier — the signed actual becomes 2000 —
while the run completes and the unmapped set (the pipeline's only
mapping-time data-quality report) stays empty: nothing surfaces the
defect. -/
theorem invalid_sign_silently_applied_cex :
    unmappedSet (mergeTables pnlStd.rows coaSign2.rows) = []
    ∧ ((signRows (joinedTable pnlStd coaSign2)).map (fun r => r.sign)
        = [some 2])
    ∧ ((signRows (joinedTable pnlStd coaSign2)).map
        (fun r => r.actual_signed) = [some 2000])
    ∧ some (2000 : ℚ) ≠ some (1000 : ℚ)
    ∧ ((runPipeline pnlStd coaSign2 (2024, 1) View.total).toOption.map
        (fun pl => pl.pivot_table.map (fun r => r.actual))
        = some [2000]) := by decide

/-- Claim C8, amended: the sign normalizer applies any non-null CoA
sign value as a multiplier without validating it; no check restricts
signs to +1 or -1. -/
theorem sign_applied_unvalidated (j : JoinedRow) (s : ℚ)
    (h : j.sign = some s) :
    (signRow j).actual_signed = some (j.actual * s)
    ∧ (signRow j).budget_signed = some (j.budget * s)
    ∧ (signRow j).prior_signed = some (j.prior_year * s) := by
  simp [signRow, h]

/-- Witness for the amended C8 at the sign-2 join. -/
theorem sign_applied_unvalidated_witness :
    (signRow (matchJoin rStd mSign2)).actual_signed
      = some ((matchJoin rStd mSign2).actual * 2)
    ∧ (signRow (matchJoin rStd mSign2)).budget_signed
      = some ((matchJoin rStd mSign2).budget * 2)
    ∧ (signRow (matchJoin rStd mSign2)).prior_signed
      = some ((matchJoin rStd mSign2).prior_year * 2) :=
  sign_applied_unvalidated (matchJoin rStd mSign2) 2 rfl

/-- Claim C9: the pipeline is a pure function of its four inputs —
equal fact data, CoA data, period selector and grouping selector
give equal export payloads on every re-run. -/
theorem pipeline_deterministic (a b : PnlInput) (c d : CoaInput)
    (p q : PeriodM) (v w : View)
    (h1 : a = b) (h2 : c = d) (h3 : p = q) (h4 : v = w) :
    runPipeline a c p v = runPipeline b d q w := by
  subst h1; subst h2; subst h3; subst h4; rfl

/-- Witness for C9 at the standard run. -/
theorem pipeline_deterministic_witness :
    runPipeline pnlStd coaStd (2024, 1) View.total
      = runPipeline pnlStd coaStd (2024, 1) View.total :=
  pipeline_deterministic pnlStd pnlStd coaStd coaStd (2024, 1) (2024, 1)
    View.total View.total rfl rfl rfl rfl

/-- Claim C10: unmapped detection is keyed on the post-join null
category, not on join failure: an account code the CoA maps to a
null category still lands in the unmapped set, every joined row with
a null category does, and every filtered row with a null category
falls into a pivot group whose category key component is null. -/
theorem unmapped_keyed_on_null_category (pnlIn : PnlInput)
    (coaIn : CoaInput) (p : PeriodM) (v : View)
    (hnd : (coaIn.rows.map (fun x => x.account_code)).Nodup)
    (m : CoaRow) (hm : m ∈ coaIn.rows) (hcat : m.category = none)
    (r : PnlRow) (hr : r ∈ pnlIn.rows)
    (hcode : r.account_code = m.account_code) :
    r.account_code ∈ unmappedSet (mergeTables pnlIn.rows coaIn.rows)
    ∧ (∀ j ∈ mergeTables pnlIn.rows coaIn.rows, j.category = none →
        j.account_code ∈ unmappedSet (mergeTables pnlIn.rows coaIn.rows))
    ∧ (∀ sr ∈ selectedRows pnlIn coaIn p, sr.category = none →
        groupKey v sr ∈ groupKeys v (selectedRows pnlIn coaIn p)
        ∧ (groupKey v sr).2.1 = none) := by
  have hmatch : coaMatches coaIn.rows r.account_code = [m] := by
    rw [hcode]; exact coaMatches_sub_single hnd m hm
  have hrow : matchJoin r m ∈ mergeRow coaIn.rows r := by
    rw [mergeRow, hmatch]
    simp
  have hmem : matchJoin r m ∈ mergeTables pnlIn.rows coaIn.rows := by
    unfold mergeTables
    exact List.mem_flatMap.mpr ⟨r, hr, hrow⟩
  refine ⟨?_, ?_, ?_⟩
  · have hcatm : (matchJoin r m).category = none := hcat
    exact mem_unmappedSet hmem hcatm
  · intro j hj hc
    exact mem_unmappedSet hj hc
  · intro sr hsr hc
    constructor
    · unfold groupKeys
      rw [mem_uniqueFirst]
      exact List.mem_map_of_mem _ hsr
    · show sr.category = none
      exact hc

/-- Witness for C10: the CoA maps account 4000 to a null category;
its code is reported unmapped and its rows group under a null
category key. -/
theorem unmapped_keyed_on_null_category_witness :
    rStd.account_code ∈ unmappedSet (mergeTables pnlStd.rows coaNullCat.rows)
    ∧ (∀ j ∈ mergeTables pnlStd.rows coaNullCat.rows, j.category = none →
        j.account_code ∈ unmappedSet (mergeTables pnlStd.rows coaNullCat.rows))
    ∧ (∀ sr ∈ selectedRows pnlStd coaNullCat (2024, 1),
        sr.category = none →
        groupKey View.total sr
          ∈ groupKeys View.total (selectedRows pnlStd coaNullCat (2024, 1))
        ∧ (groupKey View.total sr).2.1 = none) :=
  unmapped_keyed_on_null_category pnlStd coaNullCat (2024, 1) View.total
    (by decide) mNullCat (by decide) rfl rStd (by decide) rfl

end Claims

end PnlAssistant
